import Mathlib

/-!
A shallow embedding of `scripts/scopus_to_bib.py`: the record normalizer,
citekey generator, deduplicator/sorter and BibTeX serializer, together with
theorems checking the specification's claims about them.

Strings are modelled over their character lists; Python `None`-vs-absent
attribute distinctions are modelled by the `PyVal` type; a Python exception
escaping a modelled function is modelled by an `Option`/`Except` failure.
-/

namespace ScopusToBib

/-- ASCII whitespace, as matched by Python `\s`, `str.strip()` and `str.split()`. -/
def isWs (c : Char) : Bool :=
  c == ' ' || c == '\t' || c == '\n' || c == '\r' || c == '\x0b' || c == '\x0c'

/-- Word characters, as matched by Python `\w` (ASCII range). -/
def isWd (c : Char) : Bool := c.isAlpha || c.isDigit || c == '_'

/-- Characters collapsed by the regex `[\s_-]+` in `slugify`. -/
def isSep (c : Char) : Bool := isWs c || c == '_' || c == '-'

/-- Python `str.strip()` on character lists: ASCII whitespace dropped from both ends. -/
def pyStripChars (l : List Char) : List Char :=
  ((l.dropWhile isWs).reverse.dropWhile isWs).reverse

/-- Python `str.strip()`. -/
def pyStrip (s : String) : String := (pyStripChars s.data).asString

/-- Python `str.strip("-")`: hyphens dropped from both ends. -/
def stripHyphens (s : String) : String :=
  (((s.data.dropWhile (· == '-')).reverse.dropWhile (· == '-')).reverse).asString

/-- Python `str.lower()` (ASCII). -/
def pyLower (s : String) : String := (s.data.map Char.toLower).asString

/-- Python slice `s[:n]`. -/
def pyTake (n : Nat) (s : String) : String := (s.data.take n).asString

/-- One pass of `re.sub(r"[\s_-]+", "-", ·)`: `sawSep` records whether the
previous character belonged to a separator run. -/
def collapseSeps : Bool → List Char → List Char
  | _, [] => []
  | sawSep, c :: rest =>
      if isSep c then
        (if sawSep then [] else ['-']) ++ collapseSeps true rest
      else
        c :: collapseSeps false rest

/-- `slugify`: `re.sub(r"[^\w\s-]", "", text or "").strip().lower()`, then
`re.sub(r"[\s_-]+", "-", ·)`. -/
def slugify (text : String) : String :=
  let kept := text.data.filter (fun c => isWd c || isWs c || c == '-')
  let lowered := (pyStripChars kept).map Char.toLower
  (collapseSeps false lowered).asString

/-- Python `str.split()` with no arguments: split on whitespace runs, empty
tokens discarded.  `cur` is the (reversed) token being accumulated. -/
def pySplitAux : List Char → List Char → List String
  | cur, [] => if cur.isEmpty then [] else [cur.reverse.asString]
  | cur, c :: rest =>
      if isWs c then
        if cur.isEmpty then pySplitAux [] rest
        else cur.reverse.asString :: pySplitAux [] rest
      else pySplitAux (c :: cur) rest

/-- Python `str.split()`. -/
def pySplit (s : String) : List String := pySplitAux [] s.data

/-- Python truthiness of an optional string: `None` and `""` are falsy. -/
def truthy (o : Option String) : Bool := o.getD "" != ""

/-- Python `x or ""` for an optional string. -/
def orEmpty (o : Option String) : String := o.getD ""

/-- The canonical record dict built by `record_from_abstract`. -/
structure Record where
  entry_type : Option String := none
  title : Option String := none
  year : Option String := none
  doi : Option String := none
  venue : Option String := none
  volume : Option String := none
  number : Option String := none
  pages : Option String := none
  authors : List String := []
  eid : Option String := none
  url : Option String := none
  citekey : Option String := none
deriving Repr, DecidableEq

/-- `make_citekey`.  `today` stands for `date.today().strftime("%Y%m%d")`.
The result is `none` exactly when Python raises `IndexError`
(`rec["authors"][0].split()[-1]` with a whitespace-only first author). -/
def makeCitekey (today : String) (r : Record) : Option String :=
  (match r.authors with
   | [] => some ""
   | a0 :: _ => ((pySplit a0).getLast?).map (fun last => slugify last)
  ).map (fun first_author =>
    let year := orEmpty r.year
    let title_slug := pyTake 30 (slugify (orEmpty r.title))
    let base := stripHyphens (first_author ++ year ++ title_slug)
    if truthy r.doi then base ++ "_" ++ pyTake 12 (slugify (orEmpty r.doi))
    else if truthy r.eid then base ++ "_" ++ pyTake 12 (slugify (orEmpty r.eid))
    else if base != "" then base
    else "ref" ++ today)

/-- Python `str.replace` with a single-character pattern `c` and replacement `r`. -/
def replaceChar (c : Char) (r : List Char) : List Char → List Char
  | [] => []
  | x :: xs => if x == c then r ++ replaceChar c r xs else x :: replaceChar c r xs

/-- The escaping done by `add` in `to_bibtex`:
`v.replace("\x7b", "\\\x7b").replace("\x7d", "\\\x7d")`. -/
def escBraces (v : String) : String :=
  (replaceChar '\x7d' ['\\', '\x7d'] (replaceChar '\x7b' ['\\', '\x7b'] v.data)).asString

/-- One emitted field line, as formatted by `add` in `to_bibtex`. -/
def fieldLine (k v : String) : String := "  " ++ k ++ " = \x7b" ++ escBraces v ++ "\x7d"

/-- `add(k, v)`: append a field line when the value is truthy. -/
def addField (k : String) (v : Option String) (fields : List String) : List String :=
  if truthy v then fields ++ [fieldLine k (orEmpty v)] else fields

/-- `" and ".join(authors)`. -/
def joinAnd (authors : List String) : String := String.intercalate " and " authors

/-- The entry type used by `to_bibtex`: `rec.get("entry_type", "article")`. -/
def entryTypeOf (r : Record) : String := r.entry_type.getD "article"

/-- The ordered field-line list built by the successive `add` calls in `to_bibtex`. -/
def bibFields (r : Record) : List String :=
  let f := addField "title" r.title []
  let f := addField "author" (some (joinAnd r.authors)) f
  let f := addField "year" r.year f
  let f := if entryTypeOf r == "article" then addField "journal" r.venue f
           else addField "booktitle" r.venue f
  let f := addField "volume" r.volume f
  let f := addField "number" r.number f
  let f := addField "pages" r.pages f
  let f := addField "doi" r.doi f
  addField "url" r.url f

/-- `to_bibtex`.  `none` models the `IndexError` that can escape from the
`make_citekey` fallback call. -/
def toBibtex (today : String) (r : Record) : Option String :=
  let ck : Option String :=
    if truthy r.citekey then some (orEmpty r.citekey) else makeCitekey today r
  ck.map (fun citekey =>
    "@" ++ entryTypeOf r ++ "\x7b" ++ citekey ++ ",\n" ++
      String.intercalate ",\n" (bibFields r) ++ "\n\x7d\n")

/-- A Python attribute value on a fetched metadata object: absent, `None`,
or a string. -/
inductive PyVal where
  | missing
  | noneV
  | str (s : String)
deriving Repr, DecidableEq

/-- `getattr(obj, name, None)` collapsed to an optional string. -/
def PyVal.toOpt : PyVal → Option String
  | .missing => none
  | .noneV => none
  | .str s => some s

/-- `getattr(obj, name, "") or ""`. -/
def PyVal.orEmptyD : PyVal → String
  | .missing => ""
  | .noneV => ""
  | .str s => s

/-- f-string interpolation of `getattr(obj, name, "")`: Python `None` prints
as `None`. -/
def PyVal.fstr : PyVal → String
  | .missing => ""
  | .noneV => "None"
  | .str s => s

/-- Python truthiness of an attribute value fetched with default `None`. -/
def PyVal.truthyV : PyVal → Bool
  | .str s => s != ""
  | _ => false

/-- One entry of the `authors` attribute of a fetched abstract. -/
structure PyAuthor where
  given_name : PyVal := .missing
  surname : PyVal := .missing
deriving Repr, DecidableEq

/-- A fetched `AbstractRetrieval` result, restricted to the attributes that
`record_from_abstract` reads.  `getattr(ab, "authors", []) or []` collapses a
missing/`None`/empty author list to `[]`, so `authors` is a plain list. -/
structure Abstract where
  aggregationType : PyVal := .missing
  authors : List PyAuthor := []
  title : PyVal := .missing
  coverDate : PyVal := .missing
  doi : PyVal := .missing
  publicationName : PyVal := .missing
  volume : PyVal := .missing
  issueIdentifier : PyVal := .missing
  pageRange : PyVal := .missing
  eid : PyVal := .missing
deriving Repr, DecidableEq

/-- Whether `p` is a leading run of `l`. -/
def leadsList : List Char → List Char → Bool
  | [], _ => true
  | _ :: _, [] => false
  | a :: as, b :: bs => a == b && leadsList as bs

/-- Whether `sub` occurs contiguously in `l`. -/
def hasInfixAux (sub : List Char) : List Char → Bool
  | [] => sub.isEmpty
  | c :: rest => leadsList sub (c :: rest) || hasInfixAux sub rest

/-- Python `sub in s` on strings (contiguous substring). -/
def pyContains (s sub : String) : Bool :=
  hasInfixAux sub.data s.data

/-- The entry-type classification at the top of `record_from_abstract`. -/
def entryTypeFromAgg (agg : PyVal) : String :=
  if agg.truthyV then
    let a := pyLower agg.orEmptyD
    if pyContains a "conference" || pyContains a "proceedings" then "inproceedings"
    else "article"
  else "article"

/-- The author full names collected by `record_from_abstract`:
`" ".join([given_name, surname]).strip()`, kept when non-empty. -/
def authorNames (l : List PyAuthor) : List String :=
  (l.map (fun a => pyStrip (a.given_name.orEmptyD ++ " " ++ a.surname.orEmptyD))).filter
    (fun s => s != "")

/-- `(getattr(ab, "coverDate", None) or "")[:4] or None`. -/
def yearFromCover (cd : PyVal) : Option String :=
  let y := pyTake 4 cd.orEmptyD
  if y == "" then none else some y

/-- The URL built by `record_from_abstract` by f-string interpolation of
`getattr(ab, "eid", "")`. -/
def urlOf (ab : Abstract) : String :=
  "https://www.scopus.com/record/display.uri?eid=" ++ ab.eid.fstr ++ "&origin=resultslist"

/-- The record dict literal built by `record_from_abstract`, before the
citekey is attached. -/
def rawRecord (ab : Abstract) : Record :=
  { entry_type := some (entryTypeFromAgg ab.aggregationType)
    title := ab.title.toOpt
    year := yearFromCover ab.coverDate
    doi := ab.doi.toOpt
    venue := ab.publicationName.toOpt
    volume := ab.volume.toOpt
    number := ab.issueIdentifier.toOpt
    pages := ab.pageRange.toOpt
    authors := authorNames ab.authors
    eid := ab.eid.toOpt
    url := some (urlOf ab) }

/-- `record_from_abstract`.  `none` models the exception that escapes from the
`make_citekey` call on a whitespace-only first author name. -/
def recordFromAbstract (today : String) (ab : Abstract) : Option Record :=
  (makeCitekey today (rawRecord ab)).map
    (fun ck => { rawRecord ab with citekey := some ck })

/-- Pass 1 of `main`: iterate over the fetched EIDs, skip EIDs already in the
`seen_eids` set, and fetch the rest; a `none` fetch models the caught
per-document exception (warn and continue). -/
def pass1 (fetch : String → Option Record) : List String → List String → List Record
  | _, [] => []
  | seen, eid :: rest =>
      if eid ∈ seen then pass1 fetch seen rest
      else
        match fetch eid with
        | some r => r :: pass1 fetch (eid :: seen) rest
        | none => pass1 fetch (eid :: seen) rest

/-- The EIDs for which pass 1 attempts a fetch, in order. -/
def processedEids : List String → List String → List String
  | _, [] => []
  | seen, eid :: rest =>
      if eid ∈ seen then processedEids seen rest
      else eid :: processedEids (eid :: seen) rest

/-- The lowercased-DOI key used by pass 2: `(r.get("doi") or "").lower()`. -/
def doiKey (r : Record) : String := pyLower (orEmpty r.doi)

/-- Pass 2 of `main`: DOI dedup keeping the first occurrence; `seen` is the
`seen_doi` set. -/
def dedupDoi : List String → List Record → List Record
  | _, [] => []
  | seen, r :: rest =>
      let doi := doiKey r
      if doi ≠ "" ∧ doi ∈ seen then dedupDoi seen rest
      else if doi ≠ "" then r :: dedupDoi (doi :: seen) rest
      else r :: dedupDoi seen rest

/-- The digit run of a Python integer literal: decimal digits with single
underscores allowed between digits. -/
def digitsVal (acc : Nat) : List Char → Option Nat
  | [] => some acc
  | c :: rest =>
      if c.isDigit then digitsVal (acc * 10 + (c.toNat - 48)) rest
      else if c == '_' then
        match rest with
        | [] => none
        | d :: rest2 =>
            if d.isDigit then digitsVal (acc * 10 + (d.toNat - 48)) rest2 else none
      else none

/-- A non-empty digit run starting with a digit. -/
def digitRun : List Char → Option Nat
  | [] => none
  | c :: rest => if c.isDigit then digitsVal (c.toNat - 48) rest else none

/-- Python `int(s)` (base 10, ASCII): surrounding whitespace stripped, one
optional sign, then a digit run; `none` models `ValueError`. -/
def pyInt (s : String) : Option Int :=
  match pyStripChars s.data with
  | '+' :: rest => (digitRun rest).map (fun n => (n : Int))
  | '-' :: rest => (digitRun rest).map (fun n => -(n : Int))
  | rest => (digitRun rest).map (fun n => (n : Int))

/-- The `y` computed in `sort_key`: `int(r.get("year") or 0)`, with the caught
exception turning an unparsable year into 0. -/
def yearVal (r : Record) : Int :=
  match r.year with
  | none => 0
  | some y => if y = "" then 0 else (pyInt y).getD 0

/-- `sort_key(r)`. -/
def sortKey (r : Record) : Int × String := (-(yearVal r), pyLower (orEmpty r.title))

/-- The ≤ comparison on sort keys (Python tuple comparison, lexicographic). -/
def keyLE (a b : Record) : Bool :=
  decide ((sortKey a).1 < (sortKey b).1) ||
    (decide ((sortKey a).1 = (sortKey b).1) && decide ((sortKey a).2 ≤ (sortKey b).2))

/-- `uniq.sort(key=sort_key)`: a stable ascending sort by `sort_key`. -/
def pySortRecs (l : List Record) : List Record := l.mergeSort keyLE

/-- First-occurrence dedup of a string list (set-union order is irrelevant
here because the result is sorted immediately afterwards). -/
def dedupFirst : List String → List String → List String
  | _, [] => []
  | seen, x :: rest =>
      if x ∈ seen then dedupFirst seen rest else x :: dedupFirst (x :: seen) rest

/-- `sorted(set(xs))` for strings. -/
def sortedSet (xs : List String) : List String :=
  (dedupFirst [] xs).mergeSort (fun a b => decide (a ≤ b))

/-- The author-id resolution step at the top of `main`. -/
def resolveAuthorIds (authorIdsEnv orcidsEnv : List String)
    (mapOrcid : String → List String) : List String :=
  if authorIdsEnv = [] ∧ orcidsEnv ≠ [] then
    sortedSet (orcidsEnv.map mapOrcid).flatten
  else authorIdsEnv

/-- The `SystemExit` message raised when no author ids can be determined. -/
def noAuthorMsg : String :=
  "Nessun autore specificato. Imposta una repo variable SCOPUS_AUTHOR_IDS (es: 5719...,7001...) oppure SCOPUS_ORCIDS (es: 0000-0002-1825-0097)."

/-- The generation-date comment line and the following blank line. -/
def fileHeader (isoToday : String) : String :=
  "% Generated from Scopus on " ++ isoToday ++ "\n\n"

/-- The entry text written after the header: each entry followed by one blank
line.  `none` models an exception from `to_bibtex` while writing. -/
def serializeEntries (today : String) : List Record → Option String
  | [] => some ""
  | r :: rest => do
      let e ← toBibtex today r
      let tail ← serializeEntries today rest
      pure (e ++ "\n" ++ tail)

/-- `main`, with the environment lists, the ORCID→AUID mapper, the per-author
EID query and the per-EID fetch as parameters.  `Except.error` models the
`SystemExit` raised before the output file is opened; `.ok none` models a
crash while serializing; `.ok (some content)` is a run that writes `content`. -/
def mainModel (authorIdsEnv orcidsEnv : List String)
    (mapOrcid : String → List String) (collectEids : String → List String)
    (fetch : String → Option Record) (today isoToday : String) :
    Except String (Option String) :=
  let author_ids := resolveAuthorIds authorIdsEnv orcidsEnv mapOrcid
  if author_ids = [] then .error noAuthorMsg
  else
    let recs := pass1 fetch [] (author_ids.map collectEids).flatten
    let uniq := dedupDoi [] recs
    let sorted := pySortRecs uniq
    .ok ((serializeEntries today sorted).map (fun body => fileHeader isoToday ++ body))

/-- The record of the concrete scenario in claim C1. -/
def recC1 : Record :=
  { entry_type := some "article", authors := ["Jane Doe"], year := some "2021",
    title := some "Fast Caching Systems", doi := some "10.1/X",
    venue := some "J. Systems" }

/-- Stated from the spec wording of §4.3 (claim C4): the citekey case order,
with the surname of the first author taken as its last whitespace-separated
word. -/
def citekeySpec (today : String) (r : Record) : String :=
  let firstAuthorSlug :=
    match r.authors.head? with
    | none => ""
    | some a0 => slugify (((pySplit a0).getLast?).getD "")
  let base := stripHyphens
    (firstAuthorSlug ++ orEmpty r.year ++ pyTake 30 (slugify (orEmpty r.title)))
  if truthy r.doi then base ++ "_" ++ pyTake 12 (slugify (orEmpty r.doi))
  else if truthy r.eid then base ++ "_" ++ pyTake 12 (slugify (orEmpty r.eid))
  else if base != "" then base
  else "ref" ++ today

/-- Stated from the spec wording of §4.5 (claim C6): the fixed key/value
emission order, before the emptiness filter. -/
def fieldOrderSpec (r : Record) : List (String × String) :=
  [("title", orEmpty r.title),
   ("author", joinAnd r.authors),
   ("year", orEmpty r.year),
   ((if entryTypeOf r == "article" then "journal" else "booktitle"), orEmpty r.venue),
   ("volume", orEmpty r.volume),
   ("number", orEmpty r.number),
   ("pages", orEmpty r.pages),
   ("doi", orEmpty r.doi),
   ("url", orEmpty r.url)]

/-- Character-wise description of the brace escaping: each literal brace gets
exactly one backslash put in front of it, all other characters are kept. -/
def escList : List Char → List Char
  | [] => []
  | c :: rest =>
      (if c = '\x7b' then ['\\', '\x7b']
       else if c = '\x7d' then ['\\', '\x7d']
       else [c]) ++ escList rest

/-- Brace-balance scanner with backslash escaping: a character right after a
backslash never changes the depth; `none` means a closing brace at depth 0. -/
def braceScanEsc : Bool → Nat → List Char → Option Nat
  | _, d, [] => some d
  | true, d, _ :: rest => braceScanEsc false d rest
  | false, d, c :: rest =>
      if c = '\\' then braceScanEsc true d rest
      else if c = '\x7b' then braceScanEsc false (d + 1) rest
      else if c = '\x7d' then
        (if d = 0 then none else braceScanEsc false (d - 1) rest)
      else braceScanEsc false d rest

/-- Inverse of the brace escaping: strip the single backslash in front of each
brace; fail on a brace that is not escaped. -/
def unescapeBraces : List Char → Option (List Char)
  | [] => some []
  | '\\' :: '\x7b' :: rest => (unescapeBraces rest).map (fun l => '\x7b' :: l)
  | '\\' :: '\x7d' :: rest => (unescapeBraces rest).map (fun l => '\x7d' :: l)
  | '\\' :: rest => (unescapeBraces rest).map (fun l => '\\' :: l)
  | '\x7b' :: _ => none
  | '\x7d' :: _ => none
  | c :: rest => (unescapeBraces rest).map (fun l => c :: l)

/-- The records used for the C5 witness: same author, year and 30-character
title-slug prefix, no DOI, no EID, differing beyond the truncation point. -/
def recC5a : Record :=
  { authors := ["Jane Doe"], year := some "2021",
    title := some "Fast Caching Systems For Modern Databases" }

/-- Second record of the C5 witness pair. -/
def recC5b : Record :=
  { authors := ["Jane Doe"], year := some "2021",
    title := some "Fast Caching Systems For Modern Hardware" }

/-- The record used for the C8 witness. -/
def recC8 : Record := { citekey := some "k1", title := some "T" }

/-- The record list used for the C2 witness: two distinct records sharing one
DOI up to case, and one without a DOI. -/
def recsC2 : List Record :=
  [{ doi := some "10.1/X", title := some "a" },
   { doi := some "10.1/x", title := some "b" },
   { title := some "c" }]

/-- The record used for the C3 witness: a parseable positive year. -/
def recC3a : Record := { year := some "2021", title := some "a" }

/-- Second record of the C3 witness pair: an unparsable year, sorting as 0. -/
def recC3b : Record := { year := some "n.d.", title := some "b" }

/-- The record used for the C6 witness. -/
def recC6 : Record := { title := some "T" }

/-- The abstract used for the C10 witness: no EID attribute. -/
def abC10 : Abstract :=
  { title := .str "T", authors := [{ given_name := .str "Jane", surname := .str "Doe" }] }

/-- The record the normalizer produces for `abC10`. -/
def recC10 : Record := (recordFromAbstract "20240101" abC10).getD {}

/-- C1: on the concrete scenario record the citekey is exactly
`doe2021fast-caching-systems_101x`, and the serialized entry is exactly the
`@article` block with fields title, author, year, journal, doi in that order. -/
theorem c1_concrete_scenario (today : String) :
    makeCitekey today recC1 = some "doe2021fast-caching-systems_101x" ∧
    toBibtex today recC1 = some
      ("@article\x7bdoe2021fast-caching-systems_101x,\n  title = \x7bFast Caching Systems\x7d,\n  author = \x7bJane Doe\x7d,\n  year = \x7b2021\x7d,\n  journal = \x7bJ. Systems\x7d,\n  doi = \x7b10.1/X\x7d\n\x7d\n") := by
  constructor
  · rfl
  · rfl

/-- C4: whenever the citekey generator returns a key it is the key selected by
the spec's case order — DOI suffix first, else EID suffix, else the bare base
when non-empty, else `"ref"` + current date — with the base being the
hyphen-trimmed concatenation of first-author slug, year and 30-character title
slug. -/
theorem c4_citekey_cases (today : String) (r : Record) (k : String)
    (h : makeCitekey today r = some k) : k = citekeySpec today r := by
  cases hr : r.authors with
  | nil =>
      simp [makeCitekey, hr] at h
      simp [citekeySpec, hr, ← h]
  | cons a0 t =>
      cases hl : (pySplit a0).getLast? with
      | none => simp [makeCitekey, hr, hl] at h
      | some last =>
          simp [makeCitekey, hr, hl] at h
          simp [citekeySpec, hr, hl, ← h]

/-- C4 witness: the concrete scenario record instantiates the case analysis. -/
theorem c4_citekey_cases_witness :
    "doe2021fast-caching-systems_101x" = citekeySpec "20240101" recC1 :=
  c4_citekey_cases "20240101" recC1 "doe2021fast-caching-systems_101x" (by decide)

/-- C5: on the same day, two records with the same first author, the same
year, 30-character-agreeing title slugs, and neither DOI nor EID, receive
identical citekeys — the documented accepted collision. -/
theorem c5_same_day_collision (today : String) (r1 r2 : Record)
    (hauth : r1.authors.head? = r2.authors.head?)
    (hyear : r1.year = r2.year)
    (htitle : pyTake 30 (slugify (orEmpty r1.title)) =
      pyTake 30 (slugify (orEmpty r2.title)))
    (hdoi1 : truthy r1.doi = false) (hdoi2 : truthy r2.doi = false)
    (heid1 : truthy r1.eid = false) (heid2 : truthy r2.eid = false) :
    makeCitekey today r1 = makeCitekey today r2 := by
  cases h1 : r1.authors with
  | nil =>
      cases h2 : r2.authors with
      | nil =>
          simp [makeCitekey, h1, h2, hdoi1, hdoi2, heid1, heid2, hyear, htitle]
      | cons b0 t2 => rw [h1, h2] at hauth; simp at hauth
  | cons a0 t1 =>
      cases h2 : r2.authors with
      | nil => rw [h1, h2] at hauth; simp at hauth
      | cons b0 t2 =>
          rw [h1, h2] at hauth
          simp only [List.head?_cons, Option.some.injEq] at hauth
          simp [makeCitekey, h1, h2, hauth, hdoi1, hdoi2, heid1, heid2, hyear,
            htitle]

/-- C5 witness: the two concrete colliding records get the same citekey. -/
theorem c5_same_day_collision_witness :
    makeCitekey "20240101" recC5a = makeCitekey "20240101" recC5b :=
  c5_same_day_collision "20240101" recC5a recC5b (by decide) (by decide)
    (by decide) (by decide) (by decide) (by decide) (by decide)

/-- Helper for C8: serialization does not depend on the run date once every
record carries a truthy citekey. -/
theorem serializeEntries_date_invariant (d1 d2 : String) :
    ∀ recs : List Record, (∀ q ∈ recs, truthy q.citekey = true) →
      serializeEntries d1 recs = serializeEntries d2 recs := by
  intro recs
  induction recs with
  | nil => intro _; rfl
  | cons q rest ih =>
      intro hck
      have hq : truthy q.citekey = true := hck q (by simp)
      have hrest := fun q' hq' => hck q' (List.mem_cons_of_mem q hq')
      simp [serializeEntries, toBibtex, hq, ih hrest]

/-- C8: citekey generation and serialization are deterministic — two runs on
the same day agree exactly, and once every record carries its citekey the
entry text does not depend on the run date at all, so only the generation-date
header line is run-dependent. -/
theorem c8_two_run_determinism (today : String) (r : Record)
    (recs : List Record) (hck : ∀ q ∈ recs, truthy q.citekey = true) :
    makeCitekey today r = makeCitekey today r ∧
    serializeEntries today recs = serializeEntries today recs ∧
    ∀ d1 d2 : String, serializeEntries d1 recs = serializeEntries d2 recs :=
  ⟨rfl, rfl, fun d1 d2 => serializeEntries_date_invariant d1 d2 recs hck⟩

/-- C8 witness: two runs on different dates serialize the record identically. -/
theorem c8_two_run_determinism_witness :
    serializeEntries "20240101" [recC8] = serializeEntries "20250202" [recC8] :=
  (c8_two_run_determinism "x" {} [recC8] (by decide)).2.2 "20240101" "20250202"

/-- C9: the modelled `main` aborts with the explanatory `SystemExit` message —
before any output is produced — exactly when no author identifiers can be
determined (none supplied and none resolvable from the supplied ORCIDs); in
every other case the run reaches the output-writing stage. -/
theorem c9_abort_before_write (authorIdsEnv orcidsEnv : List String)
    (mapOrcid : String → List String) (collectEids : String → List String)
    (fetch : String → Option Record) (today isoToday : String) :
    mainModel authorIdsEnv orcidsEnv mapOrcid collectEids fetch today isoToday
        = Except.error noAuthorMsg
      ↔ resolveAuthorIds authorIdsEnv orcidsEnv mapOrcid = [] := by
  by_cases h : resolveAuthorIds authorIdsEnv orcidsEnv mapOrcid = [] <;>
    simp [mainModel, h]

/-- C9 witness: with no author ids and no ORCIDs the run aborts with the
message and no output. -/
theorem c9_abort_before_write_witness :
    mainModel [] [] (fun _ => []) (fun _ => []) (fun _ => none) "t" "i"
      = Except.error noAuthorMsg :=
  (c9_abort_before_write [] [] (fun _ => []) (fun _ => []) (fun _ => none)
    "t" "i").mpr (by decide)

/-- C10: every record produced by the normalizer carries a non-empty `url`
built by interpolating the EID, the serialized entry therefore always contains
a `url` field line, and an absent EID yields the fixed
`...display.uri?eid=&origin=resultslist` URL. -/
theorem c10_url_always_set (today : String) (ab : Abstract) (r : Record)
    (h : recordFromAbstract today ab = some r) :
    r.url = some (urlOf ab) ∧ urlOf ab ≠ "" ∧
    fieldLine "url" (urlOf ab) ∈ bibFields r ∧
    (ab.eid = PyVal.missing →
      urlOf ab = "https://www.scopus.com/record/display.uri?eid=&origin=resultslist") := by
  have hne : urlOf ab ≠ "" := by
    intro he
    have hd := congrArg String.data he
    simp [urlOf, String.data_append] at hd
  obtain ⟨ck, hck, hr⟩ := Option.map_eq_some'.mp h
  subst hr
  have ht : truthy (some (urlOf ab)) = true := by
    simp [truthy, hne]
  refine ⟨rfl, hne, ?_, ?_⟩
  · simp [bibFields, addField, rawRecord, ht, orEmpty]
  · intro hm
    simp only [urlOf, hm, PyVal.fstr]
    rfl

/-- C10 witness: the normalizer succeeds on `abC10` and, its EID being absent,
the URL is the fixed empty-EID Scopus URL. -/
theorem c10_url_always_set_witness :
    urlOf abC10 = "https://www.scopus.com/record/display.uri?eid=&origin=resultslist" :=
  (c10_url_always_set "20240101" abC10 recC10 (by decide)).2.2.2 rfl

/-- Helper for C2: every EID processed in pass 1 was not in the seen set. -/
theorem processedEids_not_mem_seen :
    ∀ (eids seen : List String), ∀ e ∈ processedEids seen eids, e ∉ seen := by
  intro eids
  induction eids with
  | nil => intro seen e he; simp [processedEids] at he
  | cons x rest ih =>
      intro seen e he
      by_cases hx : x ∈ seen
      · rw [processedEids, if_pos hx] at he
        exact ih seen e he
      · rw [processedEids, if_neg hx] at he
        rcases List.mem_cons.mp he with rfl | he2
        · exact hx
        · intro hseen
          exact ih (x :: seen) e he2 (List.mem_cons_of_mem x hseen)

/-- Helper for C2: pass 1 processes each EID at most once. -/
theorem processedEids_nodup :
    ∀ (eids seen : List String), (processedEids seen eids).Nodup := by
  intro eids
  induction eids with
  | nil => intro seen; simp [processedEids]
  | cons x rest ih =>
      intro seen
      by_cases hx : x ∈ seen
      · rw [processedEids, if_pos hx]; exact ih seen
      · rw [processedEids, if_neg hx]
        refine List.nodup_cons.mpr ⟨?_, ih (x :: seen)⟩
        intro hmem
        exact processedEids_not_mem_seen rest (x :: seen) x hmem
          (List.mem_cons_self x seen)

/-- Helper for C2: the records surviving pass 1 are exactly the successful
fetches of the once-processed EIDs. -/
theorem pass1_eq_filterMap (fetch : String → Option Record) :
    ∀ (eids seen : List String),
      pass1 fetch seen eids = (processedEids seen eids).filterMap fetch := by
  intro eids
  induction eids with
  | nil => intro seen; simp [pass1, processedEids]
  | cons x rest ih =>
      intro seen
      by_cases hx : x ∈ seen
      · rw [pass1, if_pos hx, processedEids, if_pos hx]
        exact ih seen
      · rw [pass1, if_neg hx, processedEids, if_neg hx, List.filterMap_cons]
        cases hfx : fetch x with
        | none => simp [ih (x :: seen)]
        | some r => simp [ih (x :: seen)]

/-- Helper for C2: pass 2 only discards records, keeping the original order. -/
theorem dedupDoi_sublist :
    ∀ (recs : List Record) (seen : List String),
      (dedupDoi seen recs).Sublist recs := by
  intro recs
  induction recs with
  | nil => intro seen; simp [dedupDoi]
  | cons r rest ih =>
      intro seen
      rw [dedupDoi]
      split_ifs with h1 h2
      · exact (ih seen).cons r
      · exact (ih _).cons₂ r
      · exact (ih seen).cons₂ r

/-- Helper for C2: pass 2 never discards a record whose DOI key is empty. -/
theorem dedupDoi_keeps_empty_doi :
    ∀ (recs : List Record) (seen : List String),
      (dedupDoi seen recs).filter (fun r => doiKey r == "") =
        recs.filter (fun r => doiKey r == "") := by
  intro recs
  induction recs with
  | nil => intro seen; simp [dedupDoi]
  | cons r rest ih =>
      intro seen
      rw [dedupDoi]
      split_ifs with h1 h2
      · rw [List.filter_cons_of_neg (by simpa using h1.1), ih seen]
      · rw [List.filter_cons_of_neg (by simpa using h2),
          List.filter_cons_of_neg (by simpa using h2), ih]
      · have hk : doiKey r = "" := by
          rcases not_and_or.mp h1 with h | h
          · exact not_not.mp h
          · exact not_not.mp h2
        rw [List.filter_cons_of_pos (by simpa using hk),
          List.filter_cons_of_pos (by simpa using hk), ih seen]

/-- Helper for C2: among records sharing one non-empty lowercased DOI, pass 2
keeps exactly the first-encountered one (none if the DOI was already seen). -/
theorem dedupDoi_filter_doi (d : String) (hd : d ≠ "") :
    ∀ (recs : List Record) (seen : List String),
      (dedupDoi seen recs).filter (fun r => doiKey r == d) =
        if d ∈ seen then [] else (recs.filter (fun r => doiKey r == d)).take 1 := by
  intro recs
  induction recs with
  | nil => intro seen; rw [dedupDoi]; split <;> simp
  | cons r rest ih =>
      intro seen
      rw [dedupDoi]
      by_cases hds : d ∈ seen
      · rw [if_pos hds]
        split_ifs with h1 h2
        · rw [ih seen, if_pos hds]
        · have hnseen : doiKey r ∉ seen := fun hs => h1 ⟨h2, hs⟩
          have hrd : (doiKey r == d) = false := by
            simp only [beq_eq_false_iff_ne, ne_eq]
            intro he; exact hnseen (he ▸ hds)
          rw [List.filter_cons_of_neg (by simp [hrd]), ih,
            if_pos (List.mem_cons_of_mem _ hds)]
        · have hk : doiKey r = "" := not_not.mp h2
          have hrd : (doiKey r == d) = false := by
            simp only [beq_eq_false_iff_ne, ne_eq, hk]
            exact fun h => hd h.symm
          rw [List.filter_cons_of_neg (by simp [hrd]), ih seen, if_pos hds]
      · rw [if_neg hds]
        split_ifs with h1 h2
        · -- r skipped: its seen DOI key cannot be the unseen d
          have hrd : (doiKey r == d) = false := by
            simp only [beq_eq_false_iff_ne, ne_eq]
            intro he; exact hds (he ▸ h1.2)
          rw [ih seen, if_neg hds, List.filter_cons_of_neg (by simp [hrd])]
        · -- r kept, its DOI key recorded in the seen set
          by_cases hrd : doiKey r = d
          · have hrdb : (doiKey r == d) = true := by simpa using hrd
            rw [List.filter_cons_of_pos (by simp [hrdb]),
              List.filter_cons_of_pos (by simp [hrdb]), ih,
              if_pos (by rw [← hrd]; exact List.mem_cons_self _ _)]
            simp
          · have hrdb : (doiKey r == d) = false := by simpa using hrd
            have hmem : d ∉ doiKey r :: seen := by
              intro hm
              rcases List.mem_cons.mp hm with he | hm2
              · exact hrd he.symm
              · exact hds hm2
            rw [List.filter_cons_of_neg (by simp [hrdb]),
              List.filter_cons_of_neg (by simp [hrdb]), ih, if_neg hmem]
        · have hk : doiKey r = "" := not_not.mp h2
          have hrdb : (doiKey r == d) = false := by
            simp only [beq_eq_false_iff_ne, ne_eq, hk]
            exact fun h => hd h.symm
          rw [List.filter_cons_of_neg (by simp [hrdb]),
            List.filter_cons_of_neg (by simp [hrdb]), ih seen, if_neg hds]

/-- C2: deduplication is two-pass and keeps the first occurrence.  Pass 1
attempts each EID at most once, so at most one record per EID survives; pass 2
only drops records (order preserved), never drops a record with an empty or
absent DOI, and for each non-empty lowercased DOI keeps exactly the first
record carrying it. -/
theorem c2_dedup_two_pass (fetch : String → Option Record) (eids : List String)
    (recs : List Record) (d : String) (hd : d ≠ "") :
    (processedEids [] eids).Nodup ∧
    pass1 fetch [] eids = (processedEids [] eids).filterMap fetch ∧
    (dedupDoi [] recs).Sublist recs ∧
    (dedupDoi [] recs).filter (fun r => doiKey r == "") =
      recs.filter (fun r => doiKey r == "") ∧
    (dedupDoi [] recs).filter (fun r => doiKey r == d) =
      (recs.filter (fun r => doiKey r == d)).take 1 := by
  refine ⟨processedEids_nodup eids [], pass1_eq_filterMap fetch eids [],
    dedupDoi_sublist recs [], dedupDoi_keeps_empty_doi recs [], ?_⟩
  rw [dedupDoi_filter_doi d hd recs []]
  simp

/-- C2 witness: on a concrete list with one case-insensitive DOI duplicate,
only the first record with that DOI survives pass 2. -/
theorem c2_dedup_two_pass_witness :
    (dedupDoi [] recsC2).filter (fun r => doiKey r == "10.1/x") =
      (recsC2.filter (fun r => doiKey r == "10.1/x")).take 1 :=
  (c2_dedup_two_pass (fun _ => none) [] recsC2 "10.1/x" (by decide)).2.2.2.2

/-- Helper for C3: the key comparison is transitive. -/
theorem keyLE_trans (a b c : Record) (hab : keyLE a b = true)
    (hbc : keyLE b c = true) : keyLE a c = true := by
  simp only [keyLE, Bool.or_eq_true, Bool.and_eq_true, decide_eq_true_eq] at *
  rcases hab with h1 | ⟨h1, h2⟩ <;> rcases hbc with h3 | ⟨h3, h4⟩
  · exact Or.inl (h1.trans h3)
  · exact Or.inl (h3 ▸ h1)
  · exact Or.inl (h1 ▸ h3)
  · exact Or.inr ⟨h1.trans h3, h2.trans h4⟩

/-- Helper for C3: the key comparison is total. -/
theorem keyLE_total (a b : Record) : (keyLE a b || keyLE b a) = true := by
  simp only [Bool.or_eq_true, keyLE, Bool.and_eq_true, decide_eq_true_eq]
  rcases lt_trichotomy (sortKey a).1 (sortKey b).1 with h | h | h
  · exact Or.inl (Or.inl h)
  · rcases le_total (sortKey a).2 (sortKey b).2 with h2 | h2
    · exact Or.inl (Or.inr ⟨h, h2⟩)
    · exact Or.inr (Or.inr ⟨h.symm, h2⟩)
  · exact Or.inr (Or.inl h)

/-- Helper for C3: a strictly larger year gives a strictly smaller sort key. -/
theorem keyLE_of_year_gt (a b : Record) (h : yearVal b < yearVal a) :
    keyLE a b = true ∧ keyLE b a = false := by
  constructor
  · simp only [keyLE, Bool.or_eq_true, Bool.and_eq_true, decide_eq_true_eq]
    exact Or.inl (by simp only [sortKey]; omega)
  · have h1 : ¬((sortKey b).1 < (sortKey a).1) := by simp only [sortKey]; omega
    have h2 : ¬((sortKey b).1 = (sortKey a).1) := by simp only [sortKey]; omega
    simp [keyLE, h1, h2]

/-- C3: the output list is a permutation of the survivors, pairwise ordered by
the sort key (year descending via negation, then lowercased title ascending),
and a record with the strictly larger integer year always compares strictly
earlier, unparsable or missing years counting as 0. -/
theorem c3_sort_order (recs : List Record) (a b : Record)
    (h : yearVal b < yearVal a) :
    (pySortRecs recs).Perm recs ∧
    (pySortRecs recs).Pairwise (fun x y => keyLE x y = true) ∧
    (keyLE a b = true ∧ keyLE b a = false) :=
  ⟨List.mergeSort_perm recs keyLE,
   List.sorted_mergeSort (fun x y z => keyLE_trans x y z) keyLE_total recs,
   keyLE_of_year_gt a b h⟩

/-- C3 witness: a 2021 record sorts strictly before an `n.d.`-year record. -/
theorem c3_sort_order_witness :
    keyLE recC3a recC3b = true ∧ keyLE recC3b recC3a = false :=
  (c3_sort_order [] recC3a recC3b (by decide)).2.2

/-- Helper for C6: `add` appends one field line exactly when the value is
non-empty. -/
theorem addField_eq (k : String) (v : Option String) (f : List String) :
    addField k v f =
      f ++ (if orEmpty v ≠ "" then [fieldLine k (orEmpty v)] else []) := by
  by_cases h : orEmpty v = ""
  · have ht : truthy v = false := by
      simp only [orEmpty] at h
      simp [truthy, h]
    simp [addField, ht, h]
  · have ht : truthy v = true := by
      simp only [orEmpty] at h
      simp [truthy, h]
    simp [addField, ht, h]

/-- Helper for C6: pushing a common prefix out of a branch. -/
theorem ite_append_left (c : Prop) [Decidable c] (f a b : List String) :
    (if c then f ++ a else f ++ b) = f ++ (if c then a else b) := by
  split <;> rfl

/-- Helper for C6: one step of the specified filtered emission. -/
theorem filterMap_fieldStep (k v : String) (ps : List (String × String)) :
    List.filterMap (fun p => if p.2 = "" then none else some (fieldLine p.1 p.2))
        ((k, v) :: ps) =
      (if v = "" then [] else [fieldLine k v]) ++
        List.filterMap (fun p => if p.2 = "" then none else some (fieldLine p.1 p.2))
          ps := by
  by_cases h : v = "" <;> simp [List.filterMap_cons, h]

/-- Helper for C6/C7: replacing characters never empties a non-empty list. -/
theorem replaceChar_ne_nil (c : Char) (rep : List Char) (hrep : rep ≠ []) :
    ∀ l : List Char, l ≠ [] → replaceChar c rep l ≠ [] := by
  intro l hl
  cases l with
  | nil => exact absurd rfl hl
  | cons x xs =>
      rw [replaceChar]
      by_cases h : (x == c) = true
      · rw [if_pos h]
        exact fun he => hrep (List.append_eq_nil.mp he).1
      · rw [if_neg h]
        simp

/-- Helper for C6: escaping a non-empty value never yields an empty string. -/
theorem escBraces_ne_empty (v : String) (hv : v ≠ "") : escBraces v ≠ "" := by
  intro he
  have hvd : v.data ≠ [] := fun h => hv (String.ext h)
  have h1 := replaceChar_ne_nil '\x7b' ['\\', '\x7b'] (by simp) v.data hvd
  have h2 := replaceChar_ne_nil '\x7d' ['\\', '\x7d'] (by simp) _ h1
  exact h2 (congrArg String.data he)

/-- C6: the serializer emits exactly the fixed field order title, author,
year, journal-or-booktitle, volume, number, pages, doi, url, filtered by
non-emptiness, and every emitted line is a braced field line of a non-empty
value (no empty-braces line is ever emitted). -/
theorem c6_field_order (r : Record) :
    bibFields r = (fieldOrderSpec r).filterMap
      (fun p => if p.2 ≠ "" then some (fieldLine p.1 p.2) else none) ∧
    ∀ s ∈ bibFields r, ∃ k v, v ≠ "" ∧ s = fieldLine k v ∧ escBraces v ≠ "" := by
  have hmain : bibFields r = (fieldOrderSpec r).filterMap
      (fun p => if p.2 ≠ "" then some (fieldLine p.1 p.2) else none) := by
    by_cases hc : entryTypeOf r = "article" <;>
      simp [bibFields, fieldOrderSpec, addField_eq, filterMap_fieldStep,
        ite_append_left, orEmpty, hc, List.append_assoc]
  refine ⟨hmain, ?_⟩
  intro s hs
  rw [hmain] at hs
  obtain ⟨p, hp, hfp⟩ := List.mem_filterMap.mp hs
  by_cases h : p.2 = ""
  · simp [h] at hfp
  · rw [if_pos h] at hfp
    exact ⟨p.1, p.2, h, (Option.some.inj hfp).symm, escBraces_ne_empty p.2 h⟩

/-- C6 witness: the single non-empty field of `recC6` is emitted as a braced
title line. -/
theorem c6_field_order_witness :
    ∃ k v, v ≠ "" ∧ "  title = \x7bT\x7d" = fieldLine k v ∧ escBraces v ≠ "" :=
  (c6_field_order recC6).2 "  title = \x7bT\x7d" (by decide)

/-- C7 counterexample: the claim promises a balanced field block for any input
string, but a value consisting of one backslash is passed through unchanged,
its backslash escapes the closing brace of the wrapped value, and the field
line is unbalanced. -/
theorem c7_backslash_unbalanced :
    escBraces "\\" = "\\" ∧
    braceScanEsc false 0 (fieldLine "title" "\\").data ≠ some 0 := by
  constructor
  · rfl
  · decide

/-- Helper for C7: the two sequential `replace` calls amount to putting one
backslash in front of each brace. -/
theorem escBraces_data :
    ∀ v : List Char,
      replaceChar '\x7d' ['\\', '\x7d'] (replaceChar '\x7b' ['\\', '\x7b'] v) =
        escList v := by
  intro v
  induction v with
  | nil => rfl
  | cons c cs ih =>
      by_cases h1 : c = '\x7b'
      · simp [replaceChar, escList, h1, ih]
      · by_cases h2 : c = '\x7d'
        · simp [replaceChar, escList, h1, h2, ih]
        · simp [replaceChar, escList, h1, h2, ih]

/-- Helper for C7: a backslash makes the scanner skip the next character. -/
theorem scan_bs (d : Nat) (c : Char) (l : List Char) :
    braceScanEsc false d ('\\' :: c :: l) = braceScanEsc false d l := rfl

/-- Helper for C7: an unescaped opening brace increments the depth. -/
theorem scan_open (d : Nat) (l : List Char) :
    braceScanEsc false d ('\x7b' :: l) = braceScanEsc false (d + 1) l := rfl

/-- Helper for C7: an unescaped closing brace decrements the depth or fails. -/
theorem scan_close (d : Nat) (l : List Char) :
    braceScanEsc false d ('\x7d' :: l) =
      if d = 0 then none else braceScanEsc false (d - 1) l := rfl

/-- Helper for C7: any other character leaves the scanner state unchanged. -/
theorem scan_other (c : Char) (hc1 : c ≠ '\\') (hc2 : c ≠ '\x7b')
    (hc3 : c ≠ '\x7d') (d : Nat) (l : List Char) :
    braceScanEsc false d (c :: l) = braceScanEsc false d l := by
  conv_lhs => rw [braceScanEsc]
  rw [if_neg hc1, if_neg hc2, if_neg hc3]

/-- Helper for C7: scanning past characters that are neither braces nor
backslashes changes nothing. -/
theorem braceScanEsc_clean :
    ∀ l : List Char, '\\' ∉ l → '\x7b' ∉ l → '\x7d' ∉ l →
      ∀ (d : Nat) (tail : List Char),
        braceScanEsc false d (l ++ tail) = braceScanEsc false d tail := by
  intro l
  induction l with
  | nil => intro _ _ _ d tail; rfl
  | cons c cs ih =>
      intro hb h7b h7d d tail
      have hc1 : c ≠ '\\' := fun h => hb (h ▸ List.mem_cons_self _ _)
      have hc2 : c ≠ '\x7b' := fun h => h7b (h ▸ List.mem_cons_self _ _)
      have hc3 : c ≠ '\x7d' := fun h => h7d (h ▸ List.mem_cons_self _ _)
      rw [List.cons_append, scan_other c hc1 hc2 hc3]
      exact ih (fun h => hb (List.mem_cons_of_mem _ h))
        (fun h => h7b (List.mem_cons_of_mem _ h))
        (fun h => h7d (List.mem_cons_of_mem _ h)) d tail

/-- Helper for C7: an escaped block contributes nothing to the brace depth
when the original value had no backslash of its own. -/
theorem braceScanEsc_escList :
    ∀ v : List Char, '\\' ∉ v →
      ∀ (d : Nat) (tail : List Char),
        braceScanEsc false d (escList v ++ tail) = braceScanEsc false d tail := by
  intro v
  induction v with
  | nil => intro _ d tail; rfl
  | cons c cs ih =>
      intro hb d tail
      have hb' : '\\' ∉ cs := fun h => hb (List.mem_cons_of_mem _ h)
      have hc : c ≠ '\\' := fun h => hb (h ▸ List.mem_cons_self _ _)
      by_cases h1 : c = '\x7b'
      · have he : escList (c :: cs) ++ tail = '\\' :: '\x7b' :: (escList cs ++ tail) := by
          simp [escList, h1]
        rw [he, scan_bs]
        exact ih hb' d tail
      · by_cases h2 : c = '\x7d'
        · have he : escList (c :: cs) ++ tail = '\\' :: '\x7d' :: (escList cs ++ tail) := by
            simp [escList, h1, h2]
          rw [he, scan_bs]
          exact ih hb' d tail
        · have he : escList (c :: cs) ++ tail = c :: (escList cs ++ tail) := by
            simp [escList, h1, h2]
          rw [he, scan_other c hc h1 h2]
          exact ih hb' d tail

/-- Helper for C7: stripping the inserted backslashes recovers the original
backslash-free value — each brace got exactly one backslash. -/
theorem unescape_escList :
    ∀ v : List Char, '\\' ∉ v → unescapeBraces (escList v) = some v := by
  intro v
  induction v with
  | nil => intro _; rfl
  | cons c cs ih =>
      intro hb
      have hb' : '\\' ∉ cs := fun h => hb (List.mem_cons_of_mem _ h)
      have hc : c ≠ '\\' := fun h => hb (h ▸ List.mem_cons_self _ _)
      by_cases h1 : c = '\x7b'
      · simp [escList, h1, unescapeBraces, ih hb']
      · by_cases h2 : c = '\x7d'
        · simp [escList, h1, h2, unescapeBraces, ih hb']
        · simp [escList, h1, h2, unescapeBraces, hc, ih hb']

/-- C7 (amended): for every field value, escaping puts exactly one backslash
in front of each literal brace (and is undone by stripping it); when the value
itself contains no backslash — and the field key none of the special
characters, as none of the nine fixed keys does — the emitted field line is a
balanced block. -/
theorem c7_escaping (k v : String)
    (hk1 : '\\' ∉ k.data) (hk2 : '\x7b' ∉ k.data) (hk3 : '\x7d' ∉ k.data)
    (hv : '\\' ∉ v.data) :
    (escBraces v).data = escList v.data ∧
    unescapeBraces (escBraces v).data = some v.data ∧
    braceScanEsc false 0 (fieldLine k v).data = some 0 := by
  have hdata : (escBraces v).data = escList v.data := escBraces_data v.data
  refine ⟨hdata, by rw [hdata]; exact unescape_escList v.data hv, ?_⟩
  have hline : (fieldLine k v).data =
      ' ' :: ' ' :: (k.data ++ (' ' :: '=' :: ' ' :: '\x7b' ::
        ((escBraces v).data ++ ['\x7d']))) := by
    simp only [fieldLine, String.data_append, List.append_assoc]
    rfl
  rw [hline, scan_other ' ' (by decide) (by decide) (by decide),
    scan_other ' ' (by decide) (by decide) (by decide),
    braceScanEsc_clean k.data hk1 hk2 hk3,
    scan_other ' ' (by decide) (by decide) (by decide),
    scan_other '=' (by decide) (by decide) (by decide),
    scan_other ' ' (by decide) (by decide) (by decide),
    scan_open, hdata, braceScanEsc_escList v.data hv]
  decide

/-- C7 witness: a value containing braces but no backslash yields a balanced,
singly-escaped field line. -/
theorem c7_escaping_witness :
    braceScanEsc false 0 (fieldLine "title" "a\x7bb\x7dc").data = some 0 :=
  (c7_escaping "title" "a\x7bb\x7dc" (by decide) (by decide) (by decide)
    (by decide)).2.2

end ScopusToBib
